import Mathlib

/-!
Verification of the Fineract transaction tool (undo/replay orchestration).

Shallow embedding of the Python sources:
  - transaction_manager.py : date parsing, target identification, the undo
    loop, and replay ordering;
  - fineract_client.py     : the retry wrapper and the request payloads of
    undo_transaction and create_repayment;
  - data_storage.py        : load_transactions.

Remote calls are modelled as oracles (functions from the attempt or
iteration index to the outcome the server would produce), so every run of
the orchestrator is a pure function of those oracles.
-/

/-! ### Python datetime values

Python `datetime` objects compare lexicographically on
(year, month, day, hour, minute, second); `.date()` drops the time part.
We model the strict comparison with a lexicographic Bool comparison on the
field list. -/

structure PyDateTime where
  year : Nat
  month : Nat
  day : Nat
  hour : Nat
  minute : Nat
  second : Nat
deriving DecidableEq, Repr

/-- Lexicographic strict comparison of numeric lists, as Python compares
equal-length tuples of integers. -/
def listBlt : List Nat → List Nat → Bool
  | a :: as, b :: bs => decide (a < b) || (decide (a = b) && listBlt as bs)
  | _, _ => false

def PyDateTime.fields (d : PyDateTime) : List Nat :=
  [d.year, d.month, d.day, d.hour, d.minute, d.second]

/-- Python `d1 < d2` on datetimes. -/
def PyDateTime.blt (a b : PyDateTime) : Bool :=
  listBlt a.fields b.fields

/-- Python `d1.date()` : the (year, month, day) triple. -/
def PyDateTime.dateFields (d : PyDateTime) : List Nat :=
  [d.year, d.month, d.day]

/-- Python `d1.date() >= d2.date()` : day granularity, time ignored. -/
def PyDateTime.dateGE (a b : PyDateTime) : Bool :=
  !(listBlt a.dateFields b.dateFields)

theorem listBlt_irrefl : ∀ l : List Nat, listBlt l l = false
  | [] => rfl
  | a :: as => by simp [listBlt, listBlt_irrefl as]

theorem listBlt_trans : ∀ {a b c : List Nat},
    listBlt a b = true → listBlt b c = true → listBlt a c = true
  | x :: xs, y :: ys, z :: zs, hab, hbc => by
    simp only [listBlt, Bool.or_eq_true, Bool.and_eq_true, decide_eq_true_eq] at *
    rcases hab with h1 | ⟨rfl, h1⟩ <;> rcases hbc with h2 | ⟨rfl, h2⟩
    · exact Or.inl (Nat.lt_trans h1 h2)
    · exact Or.inl h1
    · exact Or.inl h2
    · exact Or.inr ⟨rfl, listBlt_trans h1 h2⟩

theorem listBlt_connex : ∀ {a b : List Nat}, a.length = b.length →
    listBlt a b = false → listBlt b a = false → a = b
  | [], [], _, _, _ => rfl
  | x :: xs, y :: ys, hlen, hab, hba => by
    simp only [listBlt, Bool.or_eq_false_iff, Bool.and_eq_false_iff,
      decide_eq_false_iff_not] at hab hba
    have hxy : x = y := by omega
    subst hxy
    have hxs : xs = ys := by
      apply listBlt_connex (by simpa using hlen)
      · rcases hab.2 with h | h
        · exact absurd rfl h
        · exact h
      · rcases hba.2 with h | h
        · exact absurd rfl h
        · exact h
    rw [hxs]

theorem PyDateTime.fields_inj {a b : PyDateTime} (h : a.fields = b.fields) :
    a = b := by
  cases a; cases b
  simp only [PyDateTime.fields, List.cons.injEq, and_true] at h
  simp_all

theorem PyDateTime.blt_irrefl (a : PyDateTime) : a.blt a = false :=
  listBlt_irrefl a.fields

theorem PyDateTime.blt_trans {a b c : PyDateTime}
    (h1 : a.blt b = true) (h2 : b.blt c = true) : a.blt c = true :=
  listBlt_trans h1 h2

theorem PyDateTime.blt_connex {a b : PyDateTime}
    (h1 : a.blt b = false) (h2 : b.blt a = false) : a = b :=
  PyDateTime.fields_inj (listBlt_connex rfl h1 h2)

theorem PyDateTime.blt_asymm {a b : PyDateTime}
    (h : a.blt b = true) : b.blt a = false := by
  cases hba : b.blt a
  · rfl
  · have := PyDateTime.blt_trans h hba
    rw [PyDateTime.blt_irrefl] at this
    exact absurd this (by simp)

/-! ### The date parser (transaction_manager.parse_date_string)

The Python function accepts either a list of up to six numbers (passed to
the `datetime` constructor) or a string matching one of five formats, tried
in order: "%d %B %Y %H:%M:%S", "%d %B %Y", "%Y-%m-%d", "%d-%m-%Y",
"%d/%m/%Y". Everything else raises. -/

/-- A raw date value as found in the JSON: a list of numbers, a string, or
some other JSON value (which the parser rejects). -/
inductive DateValue where
  | arr (xs : List Int)
  | str (s : String)
  | other
deriving DecidableEq, Repr

/-- Split a character list on a separator character (Python str.split with a
one-character separator, as used via strptime field boundaries here). -/
def splitOnChar (c : Char) : List Char → List (List Char)
  | [] => [[]]
  | x :: xs =>
    match splitOnChar c xs with
    | [] => [[]]
    | r :: rs => if x = c then [] :: r :: rs else (x :: r) :: rs

/-- Split a string on a separator character. -/
def strSplitOn (c : Char) (s : String) : List String :=
  (splitOnChar c s.toList).map (fun l => ⟨l⟩)

/-- Numeric value of a digit list. -/
def digitsToNat (cs : List Char) : Nat :=
  cs.foldl (fun a c => a * 10 + (c.toNat - 48)) 0

/-- Month number from its English name, as %B matches it. -/
def monthFromName (s : String) : Option Nat :=
  if s = "January" then some 1
  else if s = "February" then some 2
  else if s = "March" then some 3
  else if s = "April" then some 4
  else if s = "May" then some 5
  else if s = "June" then some 6
  else if s = "July" then some 7
  else if s = "August" then some 8
  else if s = "September" then some 9
  else if s = "October" then some 10
  else if s = "November" then some 11
  else if s = "December" then some 12
  else none

def isLeapYear (y : Nat) : Bool :=
  (y % 4 = 0 && y % 100 ≠ 0) || y % 400 = 0

def daysInMonth (y m : Nat) : Nat :=
  if m = 2 then (if isLeapYear y then 29 else 28)
  else if m = 4 ∨ m = 6 ∨ m = 9 ∨ m = 11 then 30
  else 31

/-- Validity check the Python datetime constructor performs. -/
def validDateTime (y mo d h mi s : Nat) : Bool :=
  1 ≤ y && y ≤ 9999 && 1 ≤ mo && mo ≤ 12 && 1 ≤ d && d ≤ daysInMonth y mo
    && h ≤ 23 && mi ≤ 59 && s ≤ 59

def mkDateTime (y mo d h mi s : Nat) : Option PyDateTime :=
  if validDateTime y mo d h mi s then some ⟨y, mo, d, h, mi, s⟩ else none

/-- A 1-2 digit numeric field (as %d, %m, %H, %M, %S match). -/
def parseNum2 (s : String) : Option Nat :=
  if 1 ≤ s.toList.length ∧ s.toList.length ≤ 2 ∧ s.toList.all Char.isDigit
  then some (digitsToNat s.toList)
  else none

/-- A 4 digit year field (as %Y matches). -/
def parseYear4 (s : String) : Option Nat :=
  if s.toList.length = 4 ∧ s.toList.all Char.isDigit
  then some (digitsToNat s.toList)
  else none

/-- Format "%d %B %Y %H:%M:%S". -/
def tryFormatLong (s : String) : Option PyDateTime :=
  match strSplitOn ' ' s with
  | [ds, bs, ys, hms] =>
    match strSplitOn ':' hms with
    | [hs, ms, ss] =>
      match parseNum2 ds, monthFromName bs, parseYear4 ys,
            parseNum2 hs, parseNum2 ms, parseNum2 ss with
      | some d, some mo, some y, some h, some mi, some sec =>
        mkDateTime y mo d h mi sec
      | _, _, _, _, _, _ => none
    | _ => none
  | _ => none

/-- Format "%d %B %Y". -/
def tryFormatDayMonthNameYear (s : String) : Option PyDateTime :=
  match strSplitOn ' ' s with
  | [ds, bs, ys] =>
    match parseNum2 ds, monthFromName bs, parseYear4 ys with
    | some d, some mo, some y => mkDateTime y mo d 0 0 0
    | _, _, _ => none
  | _ => none

/-- Format "%Y-%m-%d". -/
def tryFormatIso (s : String) : Option PyDateTime :=
  match strSplitOn '-' s with
  | [ys, ms, ds] =>
    match parseYear4 ys, parseNum2 ms, parseNum2 ds with
    | some y, some mo, some d => mkDateTime y mo d 0 0 0
    | _, _, _ => none
  | _ => none

/-- Format "%d-%m-%Y". -/
def tryFormatDashed (s : String) : Option PyDateTime :=
  match strSplitOn '-' s with
  | [ds, ms, ys] =>
    match parseNum2 ds, parseNum2 ms, parseYear4 ys with
    | some d, some mo, some y => mkDateTime y mo d 0 0 0
    | _, _, _ => none
  | _ => none

/-- Format "%d/%m/%Y". -/
def tryFormatSlashed (s : String) : Option PyDateTime :=
  match strSplitOn '/' s with
  | [ds, ms, ys] =>
    match parseNum2 ds, parseNum2 ms, parseYear4 ys with
    | some d, some mo, some y => mkDateTime y mo d 0 0 0
    | _, _, _ => none
  | _ => none

/-- Component validation for the array date format. -/
def parseDateArrayAux (y mo d h mi s : Int) : Option PyDateTime :=
  if 0 ≤ y ∧ 0 ≤ mo ∧ 0 ≤ d ∧ 0 ≤ h ∧ 0 ≤ mi ∧ 0 ≤ s then
    mkDateTime y.toNat mo.toNat d.toNat h.toNat mi.toNat s.toNat
  else none

/-- The `datetime(*date_str[:6])` call on the array format: at least three
numeric components required, missing time components default to zero, all
components validated. -/
def parseDateArray (xs : List Int) : Option PyDateTime :=
  match xs.take 6 with
  | [y, mo, d] => parseDateArrayAux y mo d 0 0 0
  | [y, mo, d, h] => parseDateArrayAux y mo d h 0 0
  | [y, mo, d, h, mi] => parseDateArrayAux y mo d h mi 0
  | [y, mo, d, h, mi, s] => parseDateArrayAux y mo d h mi s
  | _ => none

/-- transaction_manager.parse_date_string: list format first, then the five
string formats in order, otherwise an error. -/
def parse_date_string : DateValue → Except String PyDateTime
  | .arr xs =>
    match parseDateArray xs with
    | some d => .ok d
    | none => .error "invalid datetime components"
  | .str s =>
    match tryFormatLong s with
    | some d => .ok d
    | none =>
      match tryFormatDayMonthNameYear s with
      | some d => .ok d
      | none =>
        match tryFormatIso s with
        | some d => .ok d
        | none =>
          match tryFormatDashed s with
          | some d => .ok d
          | none =>
            match tryFormatSlashed s with
            | some d => .ok d
            | none => .error ("Unable to parse date: " ++ s)
  | .other => .error "Unexpected date format"

/-- transaction_manager.format_date_for_api: strftime "%d %B %Y %H:%M:%S". -/
def monthName (m : Nat) : String :=
  match m with
  | 1 => "January" | 2 => "February" | 3 => "March" | 4 => "April"
  | 5 => "May" | 6 => "June" | 7 => "July" | 8 => "August"
  | 9 => "September" | 10 => "October" | 11 => "November" | 12 => "December"
  | _ => ""

def pad2 (n : Nat) : String :=
  if n < 10 then "0" ++ toString n else toString n

def pad4 (n : Nat) : String :=
  if n < 10 then "000" ++ toString n
  else if n < 100 then "00" ++ toString n
  else if n < 1000 then "0" ++ toString n
  else toString n

def format_date_for_api (d : PyDateTime) : String :=
  pad2 d.day ++ " " ++ monthName d.month ++ " " ++ pad4 d.year ++ " " ++
    pad2 d.hour ++ ":" ++ pad2 d.minute ++ ":" ++ pad2 d.second

example : parse_date_string (.str "04 December 2025 15:37:46") =
    .ok ⟨2025, 12, 4, 15, 37, 46⟩ := rfl
example : parse_date_string (.str "01 December 2025") =
    .ok ⟨2025, 12, 1, 0, 0, 0⟩ := rfl
example : parse_date_string (.str "2025-12-04") =
    .ok ⟨2025, 12, 4, 0, 0, 0⟩ := rfl
example : parse_date_string (.str "garbage") =
    .error "Unable to parse date: garbage" := rfl
example : parse_date_string (.arr [2025, 12, 4, 15, 37, 46]) =
    .ok ⟨2025, 12, 4, 15, 37, 46⟩ := rfl

/-! ### Transaction records (loan snapshot entries)

One entry of loan_details["transactions"]. Optional JSON members are
modelled with Option; the Python code reads them with .get and defaults. -/

deriving instance DecidableEq for Except

structure TxnType where
  code : String
  value : String
deriving DecidableEq, Repr

structure PaymentDetailData where
  paymentTypeId : Option Nat
  channelTypeId : Option Nat
deriving DecidableEq, Repr

structure Txn where
  id : Nat
  typ : Option TxnType
  manuallyReversed : Bool
  date : Option DateValue
  amount : Int
  paymentDetailData : Option PaymentDetailData
deriving DecidableEq, Repr

/-- txn.get("type", \x7b\x7d).get("code", "") -/
def Txn.typeCode (t : Txn) : String :=
  (t.typ.map TxnType.code).getD ""

/-- txn.get("type", \x7b\x7d).get("value", "") -/
def Txn.typeValue (t : Txn) : String :=
  (t.typ.map TxnType.value).getD ""

/-- txn.get("paymentDetailData", ...).get("paymentType", ...).get("id", 0) -/
def Txn.paymentTypeId (t : Txn) : Nat :=
  ((t.paymentDetailData.bind PaymentDetailData.paymentTypeId).getD 0)

/-- txn.get("paymentDetailData", ...).get("channelType", ...).get("id", 0) -/
def Txn.channelTypeId (t : Txn) : Nat :=
  ((t.paymentDetailData.bind PaymentDetailData.channelTypeId).getD 0)

/-- The date of a snapshot entry, when present and parseable: the Python
loop skips entries with a falsy date and entries whose parse raises. -/
def Txn.parsedDate (t : Txn) : Option PyDateTime :=
  match t.date with
  | none => none
  | some raw =>
    match parse_date_string raw with
    | .ok d => some d
    | .error _ => none

/-! ### Target identification (undo_transactions_by_date, step 1)

One pass over the snapshot, collecting the ids of non-reversed repayment
transactions whose date (day granularity) is on or after the cutoff. -/

def targetFilter (cutoff : PyDateTime) (t : Txn) : Bool :=
  if t.typeCode ≠ "loanTransactionType.repayment" ∨ t.typeValue ≠ "Repayment"
  then false
  else if t.manuallyReversed then false
  else
    match t.parsedDate with
    | none => false
    | some d => d.dateGE cutoff

def identifyTargets (cutoff : PyDateTime) (txns : List Txn) : List Nat :=
  (txns.filter (targetFilter cutoff)).map Txn.id

/-! ### Per-iteration selection (undo_transactions_by_date, step 2)

Scan the fresh snapshot for the latest remaining target: keep the entry
with the strictly later date, and on a date tie the one with the larger
id. -/

def selStep (remaining : List Nat) (best : Option (Txn × PyDateTime))
    (txn : Txn) : Option (Txn × PyDateTime) :=
  if txn.id ∈ remaining then
    match txn.parsedDate with
    | none => best
    | some d =>
      match best with
      | none => some (txn, d)
      | some (bt, bd) =>
        if bd.blt d then some (txn, d)
        else if d = bd ∧ txn.id > bt.id then some (txn, d)
        else some (bt, bd)
  else best

def selectLatest (remaining : List Nat) (txns : List Txn) :
    Option (Txn × PyDateTime) :=
  txns.foldl (selStep remaining) none

/-! ### The undo loop

The remote calls are oracles indexed by the fetch / iteration counter:
`fetch k` is the k-th get_loan_details result (k = 0 is the identification
fetch), `undoRes k` the k-th undo_transaction outcome. -/

inductive FetchResult where
  | fetchFail
  | fetchOk (transactions : List Txn)

structure Outcome where
  loan_id : Nat
  transaction_id : Nat
  transaction_date : String
  transaction_amount : Int
  payment_type_id : Nat
  channel_type_id : Nat
  status : String
  error : Option String
deriving DecidableEq, Repr

def mkOutcome (loanId : Nat) (t : Txn) (d : PyDateTime) (status : String)
    (err : Option String) : Outcome :=
  { loan_id := loanId
    transaction_id := t.id
    transaction_date := format_date_for_api d
    transaction_amount := t.amount
    payment_type_id := t.paymentTypeId
    channel_type_id := t.channelTypeId
    status := status
    error := err }

def undoLoopGo (fetch : Nat → FetchResult)
    (undoRes : Nat → Except String Unit) (loanId : Nat) :
    Nat → Nat → List Nat → List Outcome → Nat → Nat →
    List Outcome × Nat × Nat
  | 0, _, _, acc, s, f => (acc, s, f)
  | fuel + 1, iter, remaining, acc, s, f =>
    if remaining.isEmpty then (acc, s, f)
    else
      match fetch iter with
      | .fetchFail => (acc, s, f)
      | .fetchOk txns =>
        match selectLatest remaining txns with
        | none => (acc, s, f)
        | some (t, d) =>
          match undoRes iter with
          | .ok _ =>
            undoLoopGo fetch undoRes loanId fuel (iter + 1)
              (remaining.erase t.id)
              (acc ++ [mkOutcome loanId t d "undone" none]) (s + 1) f
          | .error msg =>
            undoLoopGo fetch undoRes loanId fuel (iter + 1)
              (remaining.erase t.id)
              (acc ++ [mkOutcome loanId t d "failed" (some msg)]) s (f + 1)

/-- transaction_manager.undo_transactions_by_date: parse the cutoff, fetch
once, identify targets, then iterate. The session folder bookkeeping is
file I/O and is not modelled; the returned list is exactly the list that
save_transactions persists. -/
def undo_transactions_by_date (fetch : Nat → FetchResult)
    (undoRes : Nat → Except String Unit) (loanId : Nat)
    (cutoff_date : DateValue) : Except String (List Outcome × Nat × Nat) :=
  match parse_date_string cutoff_date with
  | .error e => .error ("Failed to parse cutoff date: " ++ e)
  | .ok cutoff =>
    match fetch 0 with
    | .fetchFail => .error "Failed to fetch loan"
    | .fetchOk txns =>
      let targets := (identifyTargets cutoff txns).dedup
      .ok (undoLoopGo fetch undoRes loanId targets.length 1 targets [] 0 0)

/-! ### Client request payloads (fineract_client.py)

undo_transaction and create_repayment build a JSON payload. Config date
and time format strings and the locale come from config.py defaults. -/

def Config.DATE_FORMAT : String := "dd MMMM yyyy"
def Config.TIME_FORMAT : String := "dd MMMM yyyy HH:mm:ss"
def Config.LOCALE : String := "en"

structure UndoPayload where
  transactionDate : String
  transactionAmount : Int
  dateFormat : String
  timeFormat : String
  locale : String
deriving DecidableEq, Repr

/-- The payload of fineract_client.undo_transaction: transactionAmount is
the literal 0, not the transaction_amount argument. -/
def undo_transaction_payload (transaction_amount : Int)
    (transaction_date : String) : UndoPayload :=
  { transactionDate := transaction_date
    transactionAmount := 0
    dateFormat := Config.DATE_FORMAT
    timeFormat := Config.TIME_FORMAT
    locale := Config.LOCALE }

/-- paymentTypeId default: `payment_type_id if payment_type_id and
payment_type_id != 0 else 8`. None and 0 are falsy, so both fall back
to 8. -/
def valid_payment_type_id (payment_type_id : Option Int) : Int :=
  match payment_type_id with
  | none => 8
  | some n => if n = 0 then 8 else n

/-- channelTypeId default: same shape with fallback 1. -/
def valid_channel_type_id (channel_type_id : Option Int) : Int :=
  match channel_type_id with
  | none => 1
  | some n => if n = 0 then 1 else n

structure RepaymentPayload where
  isUseHoldAmount : Bool
  transactionAmount : Int
  npaAmount : Int
  transactionDate : DateValue
  dateFormat : String
  timeFormat : String
  locale : String
  paymentTypeId : Int
  channelTypeId : Int
deriving DecidableEq, Repr

/-- The payload of fineract_client.create_repayment. -/
def create_repayment_payload (transaction_amount : Int)
    (transaction_date : DateValue) (payment_type_id : Option Int)
    (channel_type_id : Option Int) (npa_amount : Int := 0) :
    RepaymentPayload :=
  { isUseHoldAmount := false
    transactionAmount := transaction_amount
    npaAmount := npa_amount
    transactionDate := transaction_date
    dateFormat := Config.DATE_FORMAT
    timeFormat := Config.TIME_FORMAT
    locale := Config.LOCALE
    paymentTypeId := valid_payment_type_id payment_type_id
    channelTypeId := valid_channel_type_id channel_type_id }

/-! ### Replay (transaction_manager.replay_transactions)

Sorting by parsed date happens before the processing loop; computing a
sort key raises on an unparseable date and aborts the whole run before any
repayment is created. Per-item failures inside the loop are recorded and
do not halt it. The create_repayment oracle is indexed by the position in
the sorted order. -/

structure RTxn where
  transaction_id : Nat
  loan_id : Nat
  transaction_date : DateValue
  transaction_amount : Int
  payment_type_id : Int
  channel_type_id : Int
deriving DecidableEq, Repr

/-- The sort key of a replay record. Only evaluated after the run has
checked that every date parses, so the fallback value is never the key
actually used. -/
def RTxn.dateKey (t : RTxn) : PyDateTime :=
  match parse_date_string t.transaction_date with
  | .ok d => d
  | .error _ => ⟨1, 1, 1, 0, 0, 0⟩

/-- Python sorted(...) comparison on keys: a may stay before b unless the
key of b is strictly smaller. -/
def replayLe (a b : RTxn) : Bool :=
  !(b.dateKey.blt a.dateKey)

structure ReplayOutcome where
  record : RTxn
  replay_status : String
  new_transaction_id : Option Nat
  replay_error : Option String
deriving DecidableEq, Repr

/-- One create_repayment call: the loan id of the URL plus the payload. -/
structure RepaymentCall where
  loanId : Nat
  payload : RepaymentPayload
deriving DecidableEq, Repr

def mkRepaymentCall (t : RTxn) : RepaymentCall :=
  { loanId := t.loan_id
    payload := create_repayment_payload t.transaction_amount
      t.transaction_date (some t.payment_type_id)
      (some t.channel_type_id) }

/-- The sort relation as a Prop, for the stable sort. Python list.sort is
a stable ascending sort; we model it with insertion sort, which computes
the same list for a total transitive relation. -/
def replayRel (a b : RTxn) : Prop := replayLe a b = true

instance : DecidableRel replayRel :=
  fun a b => inferInstanceAs (Decidable (replayLe a b = true))

structure ReplayRun where
  results : List ReplayOutcome
  calls : List RepaymentCall
  success_count : Nat
  failure_count : Nat
deriving DecidableEq, Repr

def replayProcess (createRes : Nat → Except String (Option Nat)) :
    Nat → List RTxn → ReplayRun
  | _, [] => ⟨[], [], 0, 0⟩
  | i, t :: ts =>
    let rest := replayProcess createRes (i + 1) ts
    match createRes i with
    | .ok rid =>
      ⟨{ record := t, replay_status := "success", new_transaction_id := rid,
         replay_error := none } :: rest.results,
       mkRepaymentCall t :: rest.calls,
       rest.success_count + 1, rest.failure_count⟩
    | .error msg =>
      ⟨{ record := t, replay_status := "failed", new_transaction_id := none,
         replay_error := some msg } :: rest.results,
       mkRepaymentCall t :: rest.calls,
       rest.success_count, rest.failure_count + 1⟩

/-- transaction_manager.replay_transactions: compute the sort keys (the
first unparseable date raises and aborts the run), sort ascending by key
with Python's stable sort, then create one repayment per record in that
order. -/
def replay_transactions (createRes : Nat → Except String (Option Nat))
    (txns : List RTxn) : Except String ReplayRun :=
  match txns.mapM (fun t => parse_date_string t.transaction_date) with
  | .error e => .error e
  | .ok _ => .ok (replayProcess createRes 0 (txns.insertionSort replayRel))

/-! ### Record store (data_storage.load_transactions)

The backing file may be missing, may fail to decode as JSON, may hold a
JSON value that is not an object, or may hold an object with or without a
"transactions" member. Only the missing and undecodable cases are handled;
a non-object JSON document makes data.get raise (AttributeError), which
the function does not catch. -/

inductive StoreFile (α : Type) where
  | missing
  | invalidJson
  | jsonNonObject
  | jsonObject (transactions : Option (List α))

def load_transactions {α : Type} : StoreFile α → Except String (List α)
  | .missing => .ok []
  | .invalidJson => .ok []
  | .jsonNonObject => .error "AttributeError"
  | .jsonObject ts => .ok (ts.getD [])

/-! ### The retry wrapper (fineract_client.retry_on_network_error)

An attempt either succeeds or raises an exception; only instances of the
requests exception family are caught. An exception carrying a server
response is re-raised at once; a caught connectivity-looking error is
retried after a sleep, with the delay doubled and capped; anything else is
re-raised. The wrapper records the sleeps it performs. -/

structure PyExc where
  isRequests : Bool
  hasResponse : Bool
  message : String
deriving DecidableEq, Repr

/-- Substring test on character lists. -/
def subSeqAt (p l : List Char) : Bool :=
  decide (p <+: l) || (match l with
    | [] => false
    | _ :: xs => subSeqAt p xs)

def strContains (s sub : String) : Bool :=
  subSeqAt sub.toList s.toList

def lowerStr (s : String) : String :=
  ⟨s.toList.map Char.toLower⟩

/-- The keyword test of the wrapper on str(e).lower(). -/
def is_network_error (msg : String) : Bool :=
  ["connection", "timeout", "network", "unreachable",
   "failed to establish", "connection reset"].any
    (fun k => strContains (lowerStr msg) k)

structure RetryRun (α : Type) where
  result : Except PyExc α
  sleeps : List Nat
deriving Repr

def retryGo (op : Nat → Except PyExc α) (maxRetries maxDelay : Nat) :
    Nat → Nat → RetryRun α
  | attempt, delay =>
    match op attempt with
    | .ok a => ⟨.ok a, []⟩
    | .error e =>
      if e.isRequests = false then ⟨.error e, []⟩
      else if e.hasResponse then ⟨.error e, []⟩
      else if is_network_error e.message ∧ attempt < maxRetries then
        let rest := retryGo op maxRetries maxDelay (attempt + 1)
          (min (delay * 2) maxDelay)
        ⟨rest.result, delay :: rest.sleeps⟩
      else ⟨.error e, []⟩
termination_by attempt _ => maxRetries - attempt
decreasing_by simp_all; omega

/-- fineract_client.retry_on_network_error with the decorator arguments
used throughout the client: max_retries=5, initial_delay=2, max_delay=30. -/
def retry_on_network_error (op : Nat → Except PyExc α) : RetryRun α :=
  retryGo op 5 30 0 2

/-! ### Helper lemmas for the retry wrapper -/

/-- An exception the wrapper is willing to retry. -/
def retryable (e : PyExc) : Bool :=
  e.isRequests && !e.hasResponse && is_network_error e.message

/-- The deterministic delay sequence: start value, doubled and capped. -/
def dseq (delay md : Nat) : Nat → List Nat
  | 0 => []
  | n + 1 => delay :: dseq (min (delay * 2) md) md n

theorem retryGo_ok {op : Nat → Except PyExc α} {mr md attempt delay : Nat}
    {a : α} (h : op attempt = .ok a) :
    retryGo op mr md attempt delay = ⟨.ok a, []⟩ := by
  rw [retryGo, h]

theorem retryGo_stop {op : Nat → Except PyExc α} {mr md attempt delay : Nat}
    {e : PyExc} (h : op attempt = .error e)
    (hs : retryable e = false ∨ ¬ attempt < mr) :
    retryGo op mr md attempt delay = ⟨.error e, []⟩ := by
  rw [retryGo, h]
  cases hq : e.isRequests with
  | false => simp [hq]
  | true =>
    cases hb : e.hasResponse with
    | true => simp [hq, hb]
    | false =>
      have hn : is_network_error e.message = false ∨ ¬ attempt < mr := by
        rcases hs with h' | h'
        · left
          simpa [retryable, hq, hb] using h'
        · right
          exact h'
      rcases hn with h' | h' <;> simp [hq, hb, h']

theorem retryGo_retry {op : Nat → Except PyExc α} {mr md attempt delay : Nat}
    {e : PyExc} (h : op attempt = .error e) (hr : retryable e = true)
    (hlt : attempt < mr) :
    retryGo op mr md attempt delay =
      ⟨(retryGo op mr md (attempt + 1) (min (delay * 2) md)).result,
        delay :: (retryGo op mr md (attempt + 1) (min (delay * 2) md)).sleeps⟩ := by
  simp only [retryable, Bool.and_eq_true, Bool.not_eq_true'] at hr
  obtain ⟨⟨h1, h2⟩, h3⟩ := hr
  rw [retryGo, h]
  simp [h1, h2, h3, hlt]

theorem retryGo_spec (op : Nat → Except PyExc α) (mr md : Nat) :
    ∀ (n attempt delay : Nat), mr - attempt ≤ n →
      (retryGo op mr md attempt delay).sleeps =
        dseq delay md (retryGo op mr md attempt delay).sleeps.length ∧
      (retryGo op mr md attempt delay).sleeps.length ≤ mr - attempt ∧
      (∀ k, k < (retryGo op mr md attempt delay).sleeps.length →
        ∃ e, op (attempt + k) = .error e ∧ retryable e = true) ∧
      ((∃ a, op (attempt + (retryGo op mr md attempt delay).sleeps.length) = .ok a ∧
          (retryGo op mr md attempt delay).result = .ok a) ∨
       (∃ e, op (attempt + (retryGo op mr md attempt delay).sleeps.length) = .error e ∧
          (retryGo op mr md attempt delay).result = .error e)) ∧
      (∀ e, op (attempt + (retryGo op mr md attempt delay).sleeps.length) = .error e →
        attempt + (retryGo op mr md attempt delay).sleeps.length < mr →
        retryable e = false) := by
  intro n
  induction n with
  | zero =>
    intro attempt delay hle
    have hmr : ¬ attempt < mr := by omega
    cases hop : op attempt with
    | ok a =>
      rw [retryGo_ok hop]
      refine ⟨rfl, by simp, by simp, Or.inl ⟨a, by simpa using hop, rfl⟩, ?_⟩
      intro e he hlt
      simp at hlt
      omega
    | error e =>
      rw [retryGo_stop hop (Or.inr hmr)]
      refine ⟨rfl, by simp, by simp, Or.inr ⟨e, by simpa using hop, rfl⟩, ?_⟩
      intro e' he' hlt
      simp at hlt
      omega
  | succ n ih =>
    intro attempt delay hle
    cases hop : op attempt with
    | ok a =>
      rw [retryGo_ok hop]
      exact ⟨rfl, by simp, by simp, Or.inl ⟨a, by simpa using hop, rfl⟩,
        fun e he _ => by simp [hop] at he⟩
    | error e =>
      cases hre : retryable e with
      | false =>
        rw [retryGo_stop hop (Or.inl hre)]
        refine ⟨rfl, by simp, by simp, Or.inr ⟨e, by simpa using hop, rfl⟩, ?_⟩
        intro e' he' _
        simp only [List.length_nil, Nat.add_zero] at he'
        rw [hop] at he'
        cases he'
        exact hre
      | true =>
        by_cases hlt : attempt < mr
        · rw [retryGo_retry hop hre hlt]
          obtain ⟨ih1, ih2, ih3, ih4, ih5⟩ :=
            ih (attempt + 1) (min (delay * 2) md) (by omega)
          simp only [List.length_cons]
          refine ⟨?_, by omega, ?_, ?_, ?_⟩
          · rw [dseq]
            exact congrArg (delay :: ·) ih1
          · intro k hk
            cases k with
            | zero => exact ⟨e, by simpa using hop, hre⟩
            | succ j =>
              have := ih3 j (by omega)
              simpa [Nat.add_comm, Nat.add_assoc, Nat.add_left_comm] using this
          · have harr : attempt + ((retryGo op mr md (attempt + 1)
                (min (delay * 2) md)).sleeps.length + 1) =
                attempt + 1 + (retryGo op mr md (attempt + 1)
                (min (delay * 2) md)).sleeps.length := by omega
            rw [harr]
            exact ih4
          · intro e' he' hlt'
            have harr : attempt + ((retryGo op mr md (attempt + 1)
                (min (delay * 2) md)).sleeps.length + 1) =
                attempt + 1 + (retryGo op mr md (attempt + 1)
                (min (delay * 2) md)).sleeps.length := by omega
            rw [harr] at he' hlt'
            exact ih5 e' he' hlt'
        · rw [retryGo_stop hop (Or.inr hlt)]
          refine ⟨rfl, by simp, by simp, Or.inr ⟨e, by simpa using hop, rfl⟩, ?_⟩
          intro e' he' hlt'
          simp only [List.length_nil, Nat.add_zero] at hlt'
          omega

theorem dseq_take (k : Nat) (hk : k ≤ 5) :
    dseq 2 30 k = List.take k [2, 4, 8, 16, 30] := by
  interval_cases k <;> rfl

/-- C3: the retry wrapper retries only on connectivity-class failures, with
at most 5 retries and backoff delays a prefix of 2, 4, 8, 16, 30 seconds;
a failure carrying a server response at the final attempt is propagated as
the result without a further retry; when all six attempts fail with
connectivity errors the last error is propagated after sleeping exactly
2, 4, 8, 16, 30 seconds. -/
theorem retry_on_network_error_spec (op : Nat → Except PyExc α) :
    (retry_on_network_error op).sleeps <+: [2, 4, 8, 16, 30] ∧
    (∀ k, k < (retry_on_network_error op).sleeps.length →
      ∃ e, op k = .error e ∧ e.isRequests = true ∧ e.hasResponse = false ∧
        is_network_error e.message = true) ∧
    (∀ e, op ((retry_on_network_error op).sleeps.length) = .error e →
      e.isRequests = true → e.hasResponse = true →
      (retry_on_network_error op).result = .error e) ∧
    ((∀ k, k ≤ 5 → ∃ e, op k = .error e ∧ retryable e = true) →
      ∃ e, op 5 = .error e ∧ (retry_on_network_error op).result = .error e ∧
        (retry_on_network_error op).sleeps = [2, 4, 8, 16, 30]) := by
  obtain ⟨h1, h2, h3, h4, h5⟩ := retryGo_spec op 5 30 5 0 2 (by omega)
  have hlen : (retry_on_network_error op).sleeps.length ≤ 5 := by
    simpa [retry_on_network_error] using h2
  have hseq : (retry_on_network_error op).sleeps =
      List.take (retry_on_network_error op).sleeps.length [2, 4, 8, 16, 30] := by
    calc (retry_on_network_error op).sleeps
        = dseq 2 30 (retry_on_network_error op).sleeps.length := h1
      _ = _ := dseq_take _ hlen
  refine ⟨?_, ?_, ?_, ?_⟩
  · rw [hseq]
    exact List.take_prefix _ _
  · intro k hk
    obtain ⟨e, he, hr⟩ := h3 k (by simpa [retry_on_network_error] using hk)
    simp only [retryable, Bool.and_eq_true, Bool.not_eq_true'] at hr
    exact ⟨e, by simpa using he, hr.1.1, hr.1.2, hr.2⟩
  · intro e he _ _
    simp only [retry_on_network_error] at he ⊢
    rcases h4 with ⟨a, ha, _⟩ | ⟨e', he', hres⟩
    · rw [Nat.zero_add] at ha
      rw [ha] at he
      cases he
    · rw [Nat.zero_add] at he'
      rw [he'] at he
      cases he
      exact hres
  · intro hall
    have hfive : (retry_on_network_error op).sleeps.length = 5 := by
      by_contra hne
      have hlt : (retry_on_network_error op).sleeps.length < 5 := by omega
      obtain ⟨e, he, hr⟩ :=
        hall (retry_on_network_error op).sleeps.length (by omega)
      have := h5 e (by simpa using he) (by simpa using hlt)
      rw [hr] at this
      cases this
    simp only [retry_on_network_error] at hfive
    rcases h4 with ⟨a, ha, _⟩ | ⟨e', he', hres⟩
    · rw [Nat.zero_add, hfive] at ha
      obtain ⟨e, he, _⟩ := hall 5 (by omega)
      rw [ha] at he
      cases he
    · rw [Nat.zero_add, hfive] at he'
      refine ⟨e', he', by simpa [retry_on_network_error] using hres, ?_⟩
      have := hseq
      simp only [retry_on_network_error] at this ⊢
      rw [this, hfive]
      rfl

/-- C3 witness: a run in which every attempt fails with a connectivity
error sleeps 2, 4, 8, 16, 30 seconds and propagates the last error. -/
theorem retry_on_network_error_spec_witness :
    ∃ e, (fun _ : Nat =>
        (.error ⟨true, false, "connection refused"⟩ : Except PyExc Unit)) 5 =
          .error e ∧
      (retry_on_network_error (fun _ : Nat =>
        (.error ⟨true, false, "connection refused"⟩ : Except PyExc Unit))).result =
          .error e ∧
      (retry_on_network_error (fun _ : Nat =>
        (.error ⟨true, false, "connection refused"⟩ : Except PyExc Unit))).sleeps =
          [2, 4, 8, 16, 30] :=
  (retry_on_network_error_spec _).2.2.2
    (fun _ _ => ⟨⟨true, false, "connection refused"⟩, rfl, by decide⟩)

/-- C7: the undo payload always carries transactionAmount 0, whatever
amount the caller supplies. -/
theorem undo_transaction_payload_amount_zero :
    ∀ (transaction_amount : Int) (transaction_date : String),
      (undo_transaction_payload transaction_amount
        transaction_date).transactionAmount = 0 := by
  intro amt d
  rfl

/-- C8: create_repayment substitutes paymentTypeId 8 when the supplied
value is absent (None) or zero, channelTypeId 1 likewise, and passes any
nonzero supplied value through unchanged. -/
theorem create_repayment_default_ids :
    ∀ (amt : Int) (dt : DateValue) (pt ct : Option Int),
      ((pt = none ∨ pt = some 0) →
        (create_repayment_payload amt dt pt ct).paymentTypeId = 8) ∧
      (∀ n : Int, pt = some n → n ≠ 0 →
        (create_repayment_payload amt dt pt ct).paymentTypeId = n) ∧
      ((ct = none ∨ ct = some 0) →
        (create_repayment_payload amt dt pt ct).channelTypeId = 1) ∧
      (∀ n : Int, ct = some n → n ≠ 0 →
        (create_repayment_payload amt dt pt ct).channelTypeId = n) := by
  intro amt dt pt ct
  refine ⟨?_, ?_, ?_, ?_⟩
  · rintro (rfl | rfl) <;>
      simp [create_repayment_payload, valid_payment_type_id]
  · rintro n rfl hn
    simp [create_repayment_payload, valid_payment_type_id, hn]
  · rintro (rfl | rfl) <;>
      simp [create_repayment_payload, valid_channel_type_id]
  · rintro n rfl hn
    simp [create_repayment_payload, valid_channel_type_id, hn]

/-- C8 witness: concrete defaulting of a zero payment type and an absent
channel type, and pass-through of nonzero values. -/
theorem create_repayment_default_ids_witness :
    (create_repayment_payload 100 (.str "04 December 2025") (some 0)
      none).paymentTypeId = 8 ∧
    (create_repayment_payload 100 (.str "04 December 2025") (some 0)
      none).channelTypeId = 1 ∧
    (create_repayment_payload 100 (.str "04 December 2025") (some 3)
      (some 2)).paymentTypeId = 3 ∧
    (create_repayment_payload 100 (.str "04 December 2025") (some 3)
      (some 2)).channelTypeId = 2 :=
  ⟨(create_repayment_default_ids 100 (.str "04 December 2025") (some 0)
      none).1 (Or.inr rfl),
   (create_repayment_default_ids 100 (.str "04 December 2025") (some 0)
      none).2.2.1 (Or.inl rfl),
   (create_repayment_default_ids 100 (.str "04 December 2025") (some 3)
      (some 2)).2.1 3 rfl (by decide),
   (create_repayment_default_ids 100 (.str "04 December 2025") (some 3)
      (some 2)).2.2.2 2 rfl (by decide)⟩

/-- C9: loading the record store when the backing file is missing or its
contents do not decode as JSON yields the empty list, not an error. -/
theorem load_transactions_missing_or_corrupt :
    ∀ (α : Type), load_transactions (α := α) .missing = .ok [] ∧
      load_transactions (α := α) .invalidJson = .ok [] := by
  intro α
  exact ⟨rfl, rfl⟩

/-! ### Target identification: C2 -/

theorem targetFilter_eq_true_iff (cutoff : PyDateTime) (t : Txn) :
    targetFilter cutoff t = true ↔
      (t.typeCode = "loanTransactionType.repayment" ∧
       t.typeValue = "Repayment" ∧
       t.manuallyReversed = false ∧
       ∃ d, t.parsedDate = some d ∧ d.dateGE cutoff = true) := by
  unfold targetFilter
  split_ifs with h1 h2
  · simp only [Bool.false_eq_true, false_iff]
    rintro ⟨hc, hv, -, -⟩
    rcases h1 with h | h
    · exact h hc
    · exact h hv
  · simp only [Bool.false_eq_true, false_iff]
    rintro ⟨-, -, hm, -⟩
    rw [h2] at hm
    cases hm
  · push_neg at h1
    cases hd : t.parsedDate with
    | none => simp [hd]
    | some d =>
      constructor
      · intro hge
        exact ⟨h1.1, h1.2, by simpa using h2, d, rfl, hge⟩
      · rintro ⟨-, -, -, d', hd', hge⟩
        cases hd'
        simpa using hge

/-- C2: a transaction id enters the Target Set exactly when some snapshot
entry carries it with type repayment, manual-reversal flag false, and a
parseable date on or after the cutoff at day granularity; and the Target
Set, as a set of ids, is unchanged under permutation of the snapshot
list. -/
theorem identifyTargets_spec :
    ∀ (cutoff : PyDateTime) (txns : List Txn) (i : Nat),
      (i ∈ identifyTargets cutoff txns ↔
        ∃ t ∈ txns, t.id = i ∧
          t.typeCode = "loanTransactionType.repayment" ∧
          t.typeValue = "Repayment" ∧
          t.manuallyReversed = false ∧
          ∃ d, t.parsedDate = some d ∧ d.dateGE cutoff = true) ∧
      (∀ txns' : List Txn, txns.Perm txns' →
        (i ∈ identifyTargets cutoff txns ↔ i ∈ identifyTargets cutoff txns')) := by
  intro cutoff txns i
  constructor
  · simp only [identifyTargets, List.mem_map, List.mem_filter]
    constructor
    · rintro ⟨t, ⟨ht, hf⟩, rfl⟩
      obtain ⟨hc, hv, hm, d, hd, hge⟩ := (targetFilter_eq_true_iff cutoff t).mp hf
      exact ⟨t, ht, rfl, hc, hv, hm, d, hd, hge⟩
    · rintro ⟨t, ht, rfl, hc, hv, hm, d, hd, hge⟩
      exact ⟨t, ⟨ht, (targetFilter_eq_true_iff cutoff t).mpr
        ⟨hc, hv, hm, d, hd, hge⟩⟩, rfl⟩
  · intro txns' hperm
    exact ((hperm.filter (targetFilter cutoff)).map Txn.id).mem_iff

/-- C2 witness: the spec scenario. Cutoff 01 December 2025; repayments
dated 30 Nov (id 10), 01 Dec (id 11), 05 Dec (id 12, reversed) and
06 Dec (id 13) give the Target Set containing 13, and membership is stable
under reversing the snapshot list. -/
theorem identifyTargets_spec_witness :
    (13 ∈ identifyTargets ⟨2025, 12, 1, 0, 0, 0⟩
      [⟨10, some ⟨"loanTransactionType.repayment", "Repayment"⟩, false,
          some (.str "30 November 2025"), 10, none⟩,
       ⟨11, some ⟨"loanTransactionType.repayment", "Repayment"⟩, false,
          some (.str "01 December 2025"), 20, none⟩,
       ⟨12, some ⟨"loanTransactionType.repayment", "Repayment"⟩, true,
          some (.str "05 December 2025"), 30, none⟩,
       ⟨13, some ⟨"loanTransactionType.repayment", "Repayment"⟩, false,
          some (.str "06 December 2025"), 40, none⟩] ↔
      13 ∈ identifyTargets ⟨2025, 12, 1, 0, 0, 0⟩
      [⟨13, some ⟨"loanTransactionType.repayment", "Repayment"⟩, false,
          some (.str "06 December 2025"), 40, none⟩,
       ⟨12, some ⟨"loanTransactionType.repayment", "Repayment"⟩, true,
          some (.str "05 December 2025"), 30, none⟩,
       ⟨11, some ⟨"loanTransactionType.repayment", "Repayment"⟩, false,
          some (.str "01 December 2025"), 20, none⟩,
       ⟨10, some ⟨"loanTransactionType.repayment", "Repayment"⟩, false,
          some (.str "30 November 2025"), 10, none⟩]) :=
  (identifyTargets_spec ⟨2025, 12, 1, 0, 0, 0⟩ _ 13).2 _ (by decide)

/-! ### Per-iteration selection: C1 -/

/-- Entry (j, du) loses to (i, d): strictly earlier date, or same date and
a smaller-or-equal id. -/
def Dominated (du : PyDateTime) (j : Nat) (d : PyDateTime) (i : Nat) : Prop :=
  du.blt d = true ∨ (du = d ∧ j ≤ i)

theorem Dominated.trans {du d d' : PyDateTime} {j i i' : Nat}
    (h1 : Dominated du j d i) (h2 : Dominated d i d' i') :
    Dominated du j d' i' := by
  rcases h1 with h1 | ⟨rfl, h1⟩ <;> rcases h2 with h2 | ⟨rfl, h2⟩
  · exact Or.inl (PyDateTime.blt_trans h1 h2)
  · exact Or.inl h1
  · exact Or.inl h2
  · exact Or.inr ⟨rfl, Nat.le_trans h1 h2⟩

theorem selStep_cases (rem : List Nat) (b : Option (Txn × PyDateTime))
    (x : Txn) :
    selStep rem b x = b ∨
    (∃ dx, x.parsedDate = some dx ∧ x.id ∈ rem ∧
      selStep rem b x = some (x, dx)) := by
  unfold selStep
  split
  case isTrue hm =>
    split
    case h_1 => exact Or.inl rfl
    case h_2 d heq =>
      split
      case h_1 => exact Or.inr ⟨d, heq, hm, rfl⟩
      case h_2 bt bd =>
        split
        case isTrue h1 => exact Or.inr ⟨d, heq, hm, rfl⟩
        case isFalse h1 =>
          split
          case isTrue h2 => exact Or.inr ⟨d, heq, hm, rfl⟩
          case isFalse h2 => exact Or.inl rfl
  case isFalse hm => exact Or.inl rfl

theorem selStep_dominates (rem : List Nat) (b : Option (Txn × PyDateTime))
    (x : Txn) {t2 : Txn} {d2 : PyDateTime}
    (h : selStep rem b x = some (t2, d2)) :
    (∀ bt bd, b = some (bt, bd) → Dominated bd bt.id d2 t2.id) ∧
    (x.id ∈ rem → ∀ dx, x.parsedDate = some dx →
      Dominated dx x.id d2 t2.id) := by
  unfold selStep at h
  split at h
  case isTrue hm =>
    split at h
    case h_1 hnone =>
      subst h
      constructor
      · intro bt bd hbb
        cases hbb
        exact Or.inr ⟨rfl, Nat.le_refl _⟩
      · intro _ dx hdx
        rw [hnone] at hdx
        cases hdx
    case h_2 d heq =>
      split at h
      case h_1 =>
        cases h
        constructor
        · intro bt bd hb
          cases hb
        · intro _ dx hdx
          rw [heq] at hdx
          cases hdx
          exact Or.inr ⟨rfl, Nat.le_refl _⟩
      case h_2 bt0 bd0 =>
        split at h
        case isTrue h1 =>
          cases h
          constructor
          · intro bt bd hbb
            cases hbb
            exact Or.inl h1
          · intro _ dx hdx
            rw [heq] at hdx
            cases hdx
            exact Or.inr ⟨rfl, Nat.le_refl _⟩
        case isFalse h1 =>
          split at h
          case isTrue h2 =>
            cases h
            constructor
            · intro bt bd hbb
              cases hbb
              exact Or.inr ⟨h2.1.symm, Nat.le_of_lt h2.2⟩
            · intro _ dx hdx
              rw [heq] at hdx
              cases hdx
              exact Or.inr ⟨rfl, Nat.le_refl _⟩
          case isFalse h2 =>
            cases h
            constructor
            · intro bt bd hbb
              cases hbb
              exact Or.inr ⟨rfl, Nat.le_refl _⟩
            · intro _ dx hdx
              rw [heq] at hdx
              cases hdx
              push_neg at h2
              cases hq : d.blt d2 with
              | true => exact Or.inl hq
              | false =>
                have h1f : d2.blt d = false := by
                  cases hb : d2.blt d
                  · rfl
                  · exact absurd hb h1
                have heq2 : d = d2 := PyDateTime.blt_connex hq h1f
                subst heq2
                refine Or.inr ⟨rfl, ?_⟩
                have := h2 rfl
                omega
  case isFalse hm =>
    subst h
    constructor
    · intro bt bd hbb
      cases hbb
      exact Or.inr ⟨rfl, Nat.le_refl _⟩
    · intro hmem
      exact absurd hmem hm

theorem selStep_some_of_acc (rem : List Nat) (x bt : Txn) (bd : PyDateTime) :
    ∃ q, selStep rem (some (bt, bd)) x = some q := by
  unfold selStep
  by_cases hm : x.id ∈ rem
  · rw [if_pos hm]
    cases hdx : x.parsedDate with
    | none => exact ⟨(bt, bd), rfl⟩
    | some d =>
      by_cases h1 : bd.blt d = true
      · exact ⟨(x, d), by simp [h1]⟩
      · by_cases h2 : d = bd ∧ x.id > bt.id
        · exact ⟨(x, d), by simp [h1, h2]⟩
        · exact ⟨(bt, bd), by simp [h1, h2]⟩
  · rw [if_neg hm]
    exact ⟨(bt, bd), rfl⟩

theorem selStep_some_of_valid (rem : List Nat) (x : Txn) (dx : PyDateTime)
    (b : Option (Txn × PyDateTime)) (hm : x.id ∈ rem)
    (hdx : x.parsedDate = some dx) : ∃ q, selStep rem b x = some q := by
  cases b with
  | none =>
    refine ⟨(x, dx), ?_⟩
    unfold selStep
    rw [if_pos hm, hdx]
  | some p =>
    obtain ⟨bt, bd⟩ := p
    exact selStep_some_of_acc rem x bt bd

theorem selStep_none_iff (rem : List Nat) (x : Txn)
    (b : Option (Txn × PyDateTime)) :
    selStep rem b x = none ↔
      (b = none ∧ (x.id ∈ rem → x.parsedDate = none)) := by
  constructor
  · intro h
    cases b with
    | some p =>
      obtain ⟨bt, bd⟩ := p
      obtain ⟨q, hq⟩ := selStep_some_of_acc rem x bt bd
      rw [hq] at h
      cases h
    | none =>
      refine ⟨rfl, fun hm => ?_⟩
      cases hdx : x.parsedDate with
      | none => rfl
      | some dx =>
        obtain ⟨q, hq⟩ := selStep_some_of_valid rem x dx none hm hdx
        rw [hq] at h
        cases h
  · rintro ⟨rfl, hval⟩
    unfold selStep
    by_cases hm : x.id ∈ rem
    · rw [if_pos hm, hval hm]
    · rw [if_neg hm]

theorem selectLatest_go_mem :
    ∀ (txns : List Txn) (rem : List Nat) (b : Option (Txn × PyDateTime))
      (t : Txn) (d : PyDateTime),
      txns.foldl (selStep rem) b = some (t, d) →
      b = some (t, d) ∨ (t ∈ txns ∧ t.id ∈ rem ∧ t.parsedDate = some d)
  | [], rem, b, t, d, h => Or.inl h
  | x :: xs, rem, b, t, d, h => by
    rw [List.foldl_cons] at h
    rcases selectLatest_go_mem xs rem (selStep rem b x) t d h with
      h' | ⟨hmem, hr, hd⟩
    · rcases selStep_cases rem b x with he | ⟨dx, hdx, hm, he⟩
      · rw [he] at h'
        exact Or.inl h'
      · rw [he] at h'
        cases h'
        exact Or.inr ⟨List.mem_cons_self x xs, hm, hdx⟩
    · exact Or.inr ⟨List.mem_cons_of_mem x hmem, hr, hd⟩

theorem selectLatest_go_max :
    ∀ (txns : List Txn) (rem : List Nat) (b : Option (Txn × PyDateTime))
      (t : Txn) (d : PyDateTime),
      txns.foldl (selStep rem) b = some (t, d) →
      (∀ bt bd, b = some (bt, bd) → Dominated bd bt.id d t.id) ∧
      (∀ u ∈ txns, u.id ∈ rem → ∀ du, u.parsedDate = some du →
        Dominated du u.id d t.id)
  | [], rem, b, t, d, h => by
    rw [List.foldl_nil] at h
    constructor
    · intro bt bd hb
      rw [hb] at h
      cases h
      exact Or.inr ⟨rfl, Nat.le_refl _⟩
    · intro u hu
      cases hu
  | x :: xs, rem, b, t, d, h => by
    rw [List.foldl_cons] at h
    obtain ⟨ih1, ih2⟩ := selectLatest_go_max xs rem (selStep rem b x) t d h
    constructor
    · intro bt bd hb
      subst hb
      obtain ⟨q, hq⟩ := selStep_some_of_acc rem x bt bd
      obtain ⟨qt, qd⟩ := q
      obtain ⟨hdom, -⟩ := selStep_dominates rem (some (bt, bd)) x hq
      exact (hdom bt bd rfl).trans (ih1 qt qd hq)
    · intro u hu hur du hdu
      rcases List.mem_cons.mp hu with rfl | hmem
      · obtain ⟨q, hq⟩ := selStep_some_of_valid rem u du b hur hdu
        obtain ⟨qt, qd⟩ := q
        obtain ⟨-, hdom⟩ := selStep_dominates rem b u hq
        exact (hdom hur du hdu).trans (ih1 qt qd hq)
      · exact ih2 u hmem hur du hdu

theorem selectLatest_none_iff (rem : List Nat) :
    ∀ (txns : List Txn) (b : Option (Txn × PyDateTime)),
      txns.foldl (selStep rem) b = none ↔
        (b = none ∧ ∀ u ∈ txns, u.id ∈ rem → u.parsedDate = none)
  | [], b => by simp [List.foldl_nil]
  | x :: xs, b => by
    rw [List.foldl_cons, selectLatest_none_iff rem xs (selStep rem b x)]
    rw [selStep_none_iff]
    constructor
    · rintro ⟨⟨hb, hx⟩, hxs⟩
      refine ⟨hb, fun u hu hur => ?_⟩
      rcases List.mem_cons.mp hu with rfl | hmem
      · exact hx hur
      · exact hxs u hmem hur
    · rintro ⟨hb, hall⟩
      exact ⟨⟨hb, fun hm => hall x (List.mem_cons_self x xs) hm⟩,
        fun u hu hur => hall u (List.mem_cons_of_mem x hu) hur⟩

/-- C1: whenever the per-iteration scan returns a transaction, that
transaction lies in the snapshot, its id is still remaining, its date
parses, and every other remaining snapshot entry with a parseable date is
dominated: it has a strictly earlier date, or the same date and a
smaller-or-equal id. The scan is a pure function of the snapshot and the
remaining set, so the processing order is determined by the snapshot
sequence. -/
theorem selectLatest_spec :
    ∀ (remaining : List Nat) (txns : List Txn) (t : Txn) (d : PyDateTime),
      selectLatest remaining txns = some (t, d) →
      t ∈ txns ∧ t.id ∈ remaining ∧ t.parsedDate = some d ∧
      ∀ u ∈ txns, u.id ∈ remaining → ∀ du, u.parsedDate = some du →
        du.blt d = true ∨ (du = d ∧ u.id ≤ t.id) := by
  intro remaining txns t d h
  unfold selectLatest at h
  rcases selectLatest_go_mem txns remaining none t d h with h' | ⟨hm, hr, hd⟩
  · cases h'
  · exact ⟨hm, hr, hd, (selectLatest_go_max txns remaining none t d h).2⟩

/-- C1 witness: the spec tie scenario. Two remaining targets both dated
06 December 2025, ids 13 and 11; the scan picks id 13, and both entries
are dominated by the selection. -/
theorem selectLatest_spec_witness :
    (⟨13, some ⟨"loanTransactionType.repayment", "Repayment"⟩, false,
        some (.str "06 December 2025"), 40, none⟩ : Txn) ∈
      [(⟨11, some ⟨"loanTransactionType.repayment", "Repayment"⟩, false,
          some (.str "06 December 2025"), 20, none⟩ : Txn),
       ⟨13, some ⟨"loanTransactionType.repayment", "Repayment"⟩, false,
          some (.str "06 December 2025"), 40, none⟩] ∧
    (13 : Nat) ∈ [11, 13] ∧
    Txn.parsedDate ⟨13, some ⟨"loanTransactionType.repayment", "Repayment"⟩,
      false, some (.str "06 December 2025"), 40, none⟩ =
      some ⟨2025, 12, 6, 0, 0, 0⟩ ∧
    ∀ u ∈ [(⟨11, some ⟨"loanTransactionType.repayment", "Repayment"⟩, false,
          some (.str "06 December 2025"), 20, none⟩ : Txn),
       ⟨13, some ⟨"loanTransactionType.repayment", "Repayment"⟩, false,
          some (.str "06 December 2025"), 40, none⟩],
      u.id ∈ [11, 13] → ∀ du, u.parsedDate = some du →
        du.blt ⟨2025, 12, 6, 0, 0, 0⟩ = true ∨
          (du = ⟨2025, 12, 6, 0, 0, 0⟩ ∧ u.id ≤ 13) :=
  selectLatest_spec [11, 13] _ _ _ (by decide)

/-! ### Early halt of the undo loop: C4 -/

/-- C4: with ids still remaining, a failed re-fetch or a fresh snapshot in
which no remaining id is present (the scan returns nothing) ends the loop
at once, returning exactly the outcomes and counts accumulated so far —
this list is the one the session store persists. In the spec scenario,
undoing id 13 succeeds and the next snapshot no longer holds id 11: the
run returns the single undone outcome for 13, counts (1, 0), and no
outcome at all (in particular no failed one) for id 11. -/
theorem undo_early_halt_spec :
    (∀ (fetch : Nat → FetchResult) (undoRes : Nat → Except String Unit)
      (loanId fuel iter : Nat) (remaining : List Nat) (acc : List Outcome)
      (s f : Nat),
      remaining ≠ [] →
      (fetch iter = .fetchFail ∨
        (∃ txns, fetch iter = .fetchOk txns ∧
          selectLatest remaining txns = none)) →
      undoLoopGo fetch undoRes loanId (fuel + 1) iter remaining acc s f =
        (acc, s, f)) ∧
    undo_transactions_by_date
      (fun k => if k ≤ 1 then
          .fetchOk
            [⟨11, some ⟨"loanTransactionType.repayment", "Repayment"⟩, false,
                some (.str "06 December 2025"), 20, none⟩,
             ⟨13, some ⟨"loanTransactionType.repayment", "Repayment"⟩, false,
                some (.str "06 December 2025"), 40, none⟩]
        else
          .fetchOk
            [⟨13, some ⟨"loanTransactionType.repayment", "Repayment"⟩, true,
                some (.str "06 December 2025"), 40, none⟩])
      (fun _ => .ok ()) 55 (.str "01 December 2025") =
      .ok ([⟨55, 13, "06 December 2025 00:00:00", 40, 0, 0, "undone", none⟩],
        1, 0) ∧
    ∀ o ∈ [(⟨55, 13, "06 December 2025 00:00:00", 40, 0, 0, "undone", none⟩ :
        Outcome)], o.transaction_id ≠ 11 ∧ o.status ≠ "failed" := by
  refine ⟨?_, ?_, ?_⟩
  · intro fetch undoRes loanId fuel iter remaining acc s f hne hhalt
    have hemp : remaining.isEmpty = false := by
      cases remaining
      · exact absurd rfl hne
      · rfl
    rcases hhalt with hfail | ⟨txns, hok, hnone⟩
    · rw [undoLoopGo]
      rw [hemp]
      simp only [Bool.false_eq_true, if_false]
      rw [hfail]
    · rw [undoLoopGo]
      rw [hemp]
      simp only [Bool.false_eq_true, if_false]
      simp only [hok, hnone]
  · decide
  · decide

/-- C4 witness: a failing re-fetch with one id still remaining returns the
accumulated (empty) outcome list and counts unchanged. -/
theorem undo_early_halt_spec_witness :
    undoLoopGo (fun _ => .fetchFail) (fun _ => .ok ()) 1 1 5 [42] [] 0 0 =
      ([], 0, 0) :=
  undo_early_halt_spec.1 (fun _ => .fetchFail) (fun _ => .ok ()) 1 0 5 [42]
    [] 0 0 (by simp) (Or.inl rfl)

/-! ### Per-item failures and counts: C5 -/

theorem undoLoopGo_counts (fetch : Nat → FetchResult)
    (undoRes : Nat → Except String Unit) (loanId : Nat) :
    ∀ (fuel iter : Nat) (remaining : List Nat) (acc : List Outcome)
      (s f : Nat),
      s = (acc.filter (fun o => o.status == "undone")).length →
      f = (acc.filter (fun o => o.status == "failed")).length →
      (∀ o ∈ acc, o.status = "undone" ∨
        (o.status = "failed" ∧ o.error ≠ none)) →
      (undoLoopGo fetch undoRes loanId fuel iter remaining acc s f).2.1 =
        ((undoLoopGo fetch undoRes loanId fuel iter remaining acc s f).1.filter
          (fun o => o.status == "undone")).length ∧
      (undoLoopGo fetch undoRes loanId fuel iter remaining acc s f).2.2 =
        ((undoLoopGo fetch undoRes loanId fuel iter remaining acc s f).1.filter
          (fun o => o.status == "failed")).length ∧
      (∀ o ∈ (undoLoopGo fetch undoRes loanId fuel iter remaining acc s f).1,
        o.status = "undone" ∨ (o.status = "failed" ∧ o.error ≠ none)) := by
  intro fuel
  induction fuel with
  | zero =>
    intro iter remaining acc s f hs hf hacc
    exact ⟨hs, hf, hacc⟩
  | succ n ih =>
    intro iter remaining acc s f hs hf hacc
    rw [undoLoopGo]
    split
    · exact ⟨hs, hf, hacc⟩
    · split
      · exact ⟨hs, hf, hacc⟩
      · split
        · exact ⟨hs, hf, hacc⟩
        case h_2 t d =>
          split
          case h_1 =>
            apply ih
            · rw [List.filter_append]
              simp only [List.length_append, List.filter_cons,
                List.filter_nil, mkOutcome]
              rw [hs]
              simp
            · rw [List.filter_append]
              simp only [List.length_append, List.filter_cons,
                List.filter_nil, mkOutcome]
              rw [hf]
              simp
            · intro o ho
              rcases List.mem_append.mp ho with h | h
              · exact hacc o h
              · rcases List.mem_singleton.mp h with rfl
                exact Or.inl rfl
          case h_2 msg =>
            apply ih
            · rw [List.filter_append]
              simp only [List.length_append, List.filter_cons,
                List.filter_nil, mkOutcome]
              rw [hs]
              simp
            · rw [List.filter_append]
              simp only [List.length_append, List.filter_cons,
                List.filter_nil, mkOutcome]
              rw [hf]
              simp
            · intro o ho
              rcases List.mem_append.mp ho with h | h
              · exact hacc o h
              · rcases List.mem_singleton.mp h with rfl
                exact Or.inr ⟨rfl, by simp [mkOutcome]⟩

theorem undo_failure_continues (fetch : Nat → FetchResult)
    (undoRes : Nat → Except String Unit) (loanId fuel iter : Nat)
    (remaining : List Nat) (acc : List Outcome) (s f : Nat)
    (txns : List Txn) (t : Txn) (d : PyDateTime) (msg : String)
    (hne : remaining ≠ [])
    (hok : fetch iter = .fetchOk txns)
    (hsel : selectLatest remaining txns = some (t, d))
    (herr : undoRes iter = .error msg) :
    undoLoopGo fetch undoRes loanId (fuel + 1) iter remaining acc s f =
      undoLoopGo fetch undoRes loanId fuel (iter + 1) (remaining.erase t.id)
        (acc ++ [mkOutcome loanId t d "failed" (some msg)]) s (f + 1) := by
  have hemp : remaining.isEmpty = false := by
    cases remaining
    · exact absurd rfl hne
    · rfl
  rw [undoLoopGo]
  rw [hemp]
  simp only [Bool.false_eq_true, if_false]
  simp only [hok, hsel, herr]

theorem replayProcess_spec (createRes : Nat → Except String (Option Nat)) :
    ∀ (txns : List RTxn) (i : Nat),
      (replayProcess createRes i txns).results.length = txns.length ∧
      (replayProcess createRes i txns).success_count =
        ((replayProcess createRes i txns).results.filter
          (fun o => o.replay_status == "success")).length ∧
      (replayProcess createRes i txns).failure_count =
        ((replayProcess createRes i txns).results.filter
          (fun o => o.replay_status == "failed")).length ∧
      (∀ o ∈ (replayProcess createRes i txns).results,
        o.replay_status = "success" ∨
        (o.replay_status = "failed" ∧ o.replay_error ≠ none))
  | [], i => by simp [replayProcess]
  | t :: ts, i => by
    obtain ⟨ih1, ih2, ih3, ih4⟩ := replayProcess_spec createRes ts (i + 1)
    rw [replayProcess]
    cases hcr : createRes i with
    | ok rid =>
      simp only [List.length_cons, List.filter_cons]
      refine ⟨by rw [ih1], ?_, ?_, ?_⟩
      · simp only [ih2]
        simp
      · simp only [ih3]
        simp
      · intro o ho
        rcases List.mem_cons.mp ho with rfl | hm
        · exact Or.inl rfl
        · exact ih4 o hm
    | error msg =>
      simp only [List.length_cons, List.filter_cons]
      refine ⟨by rw [ih1], ?_, ?_, ?_⟩
      · simp only [ih2]
        simp
      · simp only [ih3]
        simp
      · intro o ho
        rcases List.mem_cons.mp ho with rfl | hm
        · exact Or.inr ⟨rfl, by simp⟩
        · exact ih4 o hm

theorem replayProcess_shape (createRes : Nat → Except String (Option Nat)) :
    ∀ (txns : List RTxn) (i : Nat),
      (replayProcess createRes i txns).results.map ReplayOutcome.record =
        txns ∧
      (replayProcess createRes i txns).calls = txns.map mkRepaymentCall
  | [], i => by simp [replayProcess]
  | t :: ts, i => by
    obtain ⟨ih1, ih2⟩ := replayProcess_shape createRes ts (i + 1)
    rw [replayProcess]
    cases hcr : createRes i with
    | ok rid => simp [ih1, ih2]
    | error msg => simp [ih1, ih2]

/-- C5: a per-item failure never halts the run. First conjunct: in the
undo loop a failed reverse call appends a failed outcome carrying the
error text, removes the id from the remaining set, and continues with the
next iteration. Second conjunct: any completed undo run returns a success
count equal to the number of undone outcomes and a failure count equal to
the number of failed outcomes, every failed outcome carrying error text.
Third conjunct: a replay run records one outcome per input record (no item
aborts the others) and its counts equal the numbers of success and failed
outcomes. -/
theorem per_item_failure_spec :
    (∀ (fetch : Nat → FetchResult) (undoRes : Nat → Except String Unit)
      (loanId fuel iter : Nat) (remaining : List Nat) (acc : List Outcome)
      (s f : Nat) (txns : List Txn) (t : Txn) (d : PyDateTime) (msg : String),
      remaining ≠ [] →
      fetch iter = .fetchOk txns →
      selectLatest remaining txns = some (t, d) →
      undoRes iter = .error msg →
      undoLoopGo fetch undoRes loanId (fuel + 1) iter remaining acc s f =
        undoLoopGo fetch undoRes loanId fuel (iter + 1) (remaining.erase t.id)
          (acc ++ [mkOutcome loanId t d "failed" (some msg)]) s (f + 1)) ∧
    (∀ (fetch : Nat → FetchResult) (undoRes : Nat → Except String Unit)
      (loanId : Nat) (cutoff : DateValue) (outs : List Outcome) (s f : Nat),
      undo_transactions_by_date fetch undoRes loanId cutoff =
        .ok (outs, s, f) →
      s = (outs.filter (fun o => o.status == "undone")).length ∧
      f = (outs.filter (fun o => o.status == "failed")).length ∧
      ∀ o ∈ outs, o.status = "undone" ∨
        (o.status = "failed" ∧ o.error ≠ none)) ∧
    (∀ (createRes : Nat → Except String (Option Nat)) (txns : List RTxn)
      (run : ReplayRun),
      replay_transactions createRes txns = .ok run →
      run.results.length = txns.length ∧
      run.success_count = (run.results.filter
        (fun o => o.replay_status == "success")).length ∧
      run.failure_count = (run.results.filter
        (fun o => o.replay_status == "failed")).length ∧
      ∀ o ∈ run.results, o.replay_status = "success" ∨
        (o.replay_status = "failed" ∧ o.replay_error ≠ none)) := by
  refine ⟨undo_failure_continues, ?_, ?_⟩
  · intro fetch undoRes loanId cutoff outs s f h
    unfold undo_transactions_by_date at h
    cases hc : parse_date_string cutoff with
    | error e =>
      rw [hc] at h
      cases h
    | ok cut =>
      simp only [hc] at h
      cases hf0 : fetch 0 with
      | fetchFail =>
        rw [hf0] at h
        cases h
      | fetchOk txns =>
        simp only [hf0] at h
        injection h with h'
        obtain ⟨h1, h2, h3⟩ := undoLoopGo_counts fetch undoRes loanId
          ((identifyTargets cut txns).dedup).length 1
          ((identifyTargets cut txns).dedup) [] 0 0 rfl rfl
          (by intro o ho; cases ho)
        rw [h'] at h1 h2 h3
        exact ⟨h1, h2, h3⟩
  · intro createRes txns run h
    unfold replay_transactions at h
    cases hm : txns.mapM (fun t => parse_date_string t.transaction_date) with
    | error e =>
      rw [hm] at h
      cases h
    | ok l =>
      simp only [hm] at h
      injection h with h'
      obtain ⟨h1, h2, h3, h4⟩ :=
        replayProcess_spec createRes (txns.insertionSort replayRel) 0
      rw [h'] at h1 h2 h3 h4
      refine ⟨?_, h2, h3, h4⟩
      rw [h1]
      exact List.length_insertionSort replayRel txns

/-- C5 witness: a run in which reversing id 13 fails ("Declined") and
reversing id 11 then succeeds yields two outcomes, counts (1, 1), and the
counts match the outcome statuses. -/
theorem per_item_failure_spec_witness :
    (1 : Nat) =
      ([(⟨55, 13, "06 December 2025 00:00:00", 40, 0, 0, "failed",
          some "Declined"⟩ : Outcome),
        ⟨55, 11, "06 December 2025 00:00:00", 20, 0, 0, "undone",
          none⟩].filter (fun o => o.status == "undone")).length ∧
    (1 : Nat) =
      ([(⟨55, 13, "06 December 2025 00:00:00", 40, 0, 0, "failed",
          some "Declined"⟩ : Outcome),
        ⟨55, 11, "06 December 2025 00:00:00", 20, 0, 0, "undone",
          none⟩].filter (fun o => o.status == "failed")).length ∧
    ∀ o ∈ [(⟨55, 13, "06 December 2025 00:00:00", 40, 0, 0, "failed",
          some "Declined"⟩ : Outcome),
        ⟨55, 11, "06 December 2025 00:00:00", 20, 0, 0, "undone", none⟩],
      o.status = "undone" ∨ (o.status = "failed" ∧ o.error ≠ none) :=
  per_item_failure_spec.2.1
    (fun _ => .fetchOk
      [⟨11, some ⟨"loanTransactionType.repayment", "Repayment"⟩, false,
          some (.str "06 December 2025"), 20, none⟩,
       ⟨13, some ⟨"loanTransactionType.repayment", "Repayment"⟩, false,
          some (.str "06 December 2025"), 40, none⟩])
    (fun k => if k = 1 then .error "Declined" else .ok ()) 55
    (.str "01 December 2025") _ 1 1 (by decide)

/-! ### Replay ordering: C6 -/

theorem replayLe_trans {a b c : RTxn} (h1 : replayLe a b = true)
    (h2 : replayLe b c = true) : replayLe a c = true := by
  unfold replayLe at *
  rw [Bool.not_eq_true'] at h1 h2 ⊢
  cases hq : c.dateKey.blt a.dateKey with
  | false => rfl
  | true =>
    cases hbc : b.dateKey.blt c.dateKey with
    | true =>
      have := PyDateTime.blt_trans hbc hq
      rw [this] at h1
      cases h1
    | false =>
      have heq : b.dateKey = c.dateKey := PyDateTime.blt_connex hbc h2
      rw [← heq] at hq
      rw [hq] at h1
      cases h1

theorem replayLe_total (a b : RTxn) :
    replayLe a b = true ∨ replayLe b a = true := by
  unfold replayLe
  rw [Bool.not_eq_true', Bool.not_eq_true']
  cases hq : b.dateKey.blt a.dateKey with
  | false => exact Or.inl rfl
  | true => exact Or.inr (PyDateTime.blt_asymm hq)

instance : IsTrans RTxn replayRel := ⟨fun _ _ _ => replayLe_trans⟩

instance : IsTotal RTxn replayRel := ⟨fun a b => replayLe_total a b⟩

theorem insertionSort_filter_key (txns : List RTxn) (dk : PyDateTime) :
    (txns.insertionSort replayRel).filter (fun t => t.dateKey == dk) =
      txns.filter (fun t => t.dateKey == dk) := by
  have hkey : ∀ t : RTxn, t ∈ txns.filter (fun t => t.dateKey == dk) →
      t.dateKey = dk := by
    intro t ht
    exact eq_of_beq (List.mem_filter.mp ht).2
  have hpw : (txns.filter (fun t => t.dateKey == dk)).Pairwise replayRel := by
    apply List.pairwise_of_forall_mem_list
    intro a ha b hb
    unfold replayRel replayLe
    rw [hkey a ha, hkey b hb, Bool.not_eq_true']
    exact PyDateTime.blt_irrefl dk
  have hsub : List.Sublist (txns.filter (fun t => t.dateKey == dk))
      (txns.insertionSort replayRel) :=
    List.sublist_insertionSort hpw (List.filter_sublist txns)
  have hsub2 : List.Sublist (txns.filter (fun t => t.dateKey == dk))
      ((txns.insertionSort replayRel).filter (fun t => t.dateKey == dk)) := by
    have hff : (txns.filter (fun t => t.dateKey == dk)).filter
        (fun t => t.dateKey == dk) = txns.filter (fun t => t.dateKey == dk) := by
      rw [List.filter_filter]
      congr 1
      funext t
      rw [Bool.and_self]
    have := hsub.filter (fun t => t.dateKey == dk)
    rwa [hff] at this
  have hperm : List.Perm ((txns.insertionSort replayRel).filter
      (fun t => t.dateKey == dk)) (txns.filter (fun t => t.dateKey == dk)) :=
    (List.perm_insertionSort replayRel txns).filter _
  exact (hsub2.eq_of_length hperm.length_eq.symm).symm

/-- C6: a completed replay processes exactly the input records in the
order of the stable ascending sort by parsed date: the processed sequence
is sorted by date key, is a permutation of the input, preserves the input
order inside every class of equal date keys, and createRepayment is
invoked exactly once per record, in that sequence order. -/
theorem replay_order_spec :
    ∀ (createRes : Nat → Except String (Option Nat)) (txns : List RTxn)
      (run : ReplayRun),
      replay_transactions createRes txns = .ok run →
      (run.results.map ReplayOutcome.record).Pairwise replayRel ∧
      List.Perm (run.results.map ReplayOutcome.record) txns ∧
      (∀ dk : PyDateTime,
        (run.results.map ReplayOutcome.record).filter
          (fun t => t.dateKey == dk) =
          txns.filter (fun t => t.dateKey == dk)) ∧
      run.calls = (run.results.map ReplayOutcome.record).map
        mkRepaymentCall := by
  intro createRes txns run h
  unfold replay_transactions at h
  cases hm : txns.mapM (fun t => parse_date_string t.transaction_date) with
  | error e =>
    rw [hm] at h
    cases h
  | ok l =>
    simp only [hm] at h
    injection h with h'
    obtain ⟨hs1, hs2⟩ :=
      replayProcess_shape createRes (txns.insertionSort replayRel) 0
    rw [h'] at hs1 hs2
    refine ⟨?_, ?_, ?_, ?_⟩
    · rw [hs1]
      exact List.sorted_insertionSort replayRel txns
    · rw [hs1]
      exact List.perm_insertionSort replayRel txns
    · intro dk
      rw [hs1]
      exact insertionSort_filter_key txns dk
    · rw [hs1, hs2]

/-- C6 witness: two records dated 07 and 06 December 2025, fed in that
order, are replayed in the order 06 then 07; each gets exactly one
createRepayment call. -/
theorem replay_order_spec_witness :
    (([⟨⟨1, 55, .str "06 December 2025", 20, 3, 1⟩, "success", some 91,
        none⟩,
       (⟨⟨2, 55, .str "07 December 2025", 30, 0, 0⟩, "success", some 91,
        none⟩ : ReplayOutcome)].map ReplayOutcome.record).Pairwise
      replayRel) ∧
    List.Perm
      ([⟨⟨1, 55, .str "06 December 2025", 20, 3, 1⟩, "success", some 91,
          none⟩,
        (⟨⟨2, 55, .str "07 December 2025", 30, 0, 0⟩, "success", some 91,
          none⟩ : ReplayOutcome)].map ReplayOutcome.record)
      [⟨2, 55, .str "07 December 2025", 30, 0, 0⟩,
       ⟨1, 55, .str "06 December 2025", 20, 3, 1⟩] ∧
    (∀ dk : PyDateTime,
      ([⟨⟨1, 55, .str "06 December 2025", 20, 3, 1⟩, "success", some 91,
          none⟩,
        (⟨⟨2, 55, .str "07 December 2025", 30, 0, 0⟩, "success", some 91,
          none⟩ : ReplayOutcome)].map ReplayOutcome.record).filter
        (fun t => t.dateKey == dk) =
        [(⟨2, 55, .str "07 December 2025", 30, 0, 0⟩ : RTxn),
         ⟨1, 55, .str "06 December 2025", 20, 3, 1⟩].filter
          (fun t => t.dateKey == dk)) ∧
    (ReplayRun.mk
      [⟨⟨1, 55, .str "06 December 2025", 20, 3, 1⟩, "success", some 91,
        none⟩,
       ⟨⟨2, 55, .str "07 December 2025", 30, 0, 0⟩, "success", some 91,
        none⟩]
      [mkRepaymentCall ⟨1, 55, .str "06 December 2025", 20, 3, 1⟩,
       mkRepaymentCall ⟨2, 55, .str "07 December 2025", 30, 0, 0⟩]
      2 0).calls =
      ([⟨⟨1, 55, .str "06 December 2025", 20, 3, 1⟩, "success", some 91,
          none⟩,
        (⟨⟨2, 55, .str "07 December 2025", 30, 0, 0⟩, "success", some 91,
          none⟩ : ReplayOutcome)].map ReplayOutcome.record).map
        mkRepaymentCall :=
  replay_order_spec (fun _ => .ok (some 91))
    [⟨2, 55, .str "07 December 2025", 30, 0, 0⟩,
     ⟨1, 55, .str "06 December 2025", 20, 3, 1⟩]
    (ReplayRun.mk
      [⟨⟨1, 55, .str "06 December 2025", 20, 3, 1⟩, "success", some 91,
        none⟩,
       ⟨⟨2, 55, .str "07 December 2025", 30, 0, 0⟩, "success", some 91,
        none⟩]
      [mkRepaymentCall ⟨1, 55, .str "06 December 2025", 20, 3, 1⟩,
       mkRepaymentCall ⟨2, 55, .str "07 December 2025", 30, 0, 0⟩]
      2 0)
    (by decide)

/-! ### Unparseable replay dates abort before any call: C10 -/

theorem mapM_parse_error :
    ∀ (txns : List RTxn),
      (∃ t ∈ txns, ∃ e, parse_date_string t.transaction_date = .error e) →
      ∃ msg, txns.mapM (fun t => parse_date_string t.transaction_date) =
        .error msg
  | [], h => by
    obtain ⟨t, ht, -⟩ := h
    cases ht
  | x :: xs, h => by
    rw [List.mapM_cons]
    cases hx : parse_date_string x.transaction_date with
    | error e => exact ⟨e, rfl⟩
    | ok d =>
      obtain ⟨t, ht, e, he⟩ := h
      rcases List.mem_cons.mp ht with rfl | hmem
      · rw [hx] at he
        cases he
      · obtain ⟨msg, hmsg⟩ := mapM_parse_error xs ⟨t, hmem, e, he⟩
        rw [hmsg]
        exact ⟨msg, rfl⟩

/-- C10: when some replay record has a date that matches none of the
accepted formats, the run fails while computing the sort keys: it returns
the parse error and never produces a ReplayRun, so no createRepayment call
is made and no replay result exists to be persisted. -/
theorem replay_bad_date_aborts :
    ∀ (createRes : Nat → Except String (Option Nat)) (txns : List RTxn),
      (∃ t ∈ txns, ∃ e, parse_date_string t.transaction_date = .error e) →
      (∃ msg, replay_transactions createRes txns = .error msg) ∧
      ∀ run : ReplayRun, replay_transactions createRes txns ≠ .ok run := by
  intro createRes txns h
  obtain ⟨msg, hmsg⟩ := mapM_parse_error txns h
  constructor
  · refine ⟨msg, ?_⟩
    unfold replay_transactions
    rw [hmsg]
  · intro run hrun
    unfold replay_transactions at hrun
    rw [hmsg] at hrun
    cases hrun

/-- C10 witness: a single record dated "garbage" makes the replay run fail
and yields no run at all. -/
theorem replay_bad_date_aborts_witness :
    (∃ msg, replay_transactions (fun _ => .ok none)
      [⟨1, 55, .str "garbage", 20, 3, 1⟩] = .error msg) ∧
    ∀ run : ReplayRun, replay_transactions (fun _ => .ok none)
      [⟨1, 55, .str "garbage", 20, 3, 1⟩] ≠ .ok run :=
  replay_bad_date_aborts (fun _ => .ok none)
    [⟨1, 55, .str "garbage", 20, 3, 1⟩]
    ⟨⟨1, 55, .str "garbage", 20, 3, 1⟩, List.mem_singleton.mpr rfl,
      "Unable to parse date: garbage", rfl⟩
